import Mathlib

/-!
Verification of the content-cache and retrieval subsystem of the portfolio
chatbot backend (`src/api/chat-original.js`, `src/api/chat.js`).

The JavaScript source is shallowly embedded: pure functions become Lean
functions, the stateful cache becomes explicit state passing, and the
cooperatively scheduled request handling becomes a small-step transition
system over an explicit scheduler.  JavaScript numbers used as array
indices and timestamps are modelled as `Int`/`Nat`; similarity scores are
modelled as `ℚ` (exact sign information is all the statements need), and
the `Math.sqrt`-based cosine similarity as real arithmetic.
-/

/-! ## Chunker (`splitText`, chat-original.js lines 243-260)

`splitText` is a `while` loop.  We embed it as a fuel-indexed loop:
`none` means the fuel ran out before the loop exited, so
`(∀ fuel, … = none)` states that the source loop never terminates.
The body is a direct transcription: `start` is a JS number (here `Int`,
since `end - overlap` can go negative), `text.slice` clamps negative
indices, and chunks are trimmed before being pushed. -/

/-- JavaScript `String.prototype.slice` on integer indices: negative
indices count from the end and everything is clamped into `[0, length]`. -/
def jsSlice (s : String) (a b : Int) : String :=
  let n : Int := s.length
  let lo := (if a < 0 then max (n + a) 0 else min a n).toNat
  let hi := (if b < 0 then max (n + b) 0 else min b n).toNat
  String.mk ((s.data.drop lo).take (hi - lo))

/-- The body of `splitText`'s `while (start < text.length)` loop
(chat-original.js lines 247-257), with fuel.  One recursive call per
iteration; the updates mirror the source line by line:
`end = Math.min(start + chunkSize, text.length)`, push the trimmed slice
if non-empty, `start = end - overlap`, and break once
`start >= text.length`. -/
def splitTextLoop (text : String) (chunkSize overlap : Int) :
    Nat → Int → List String → Option (List String)
  | 0, _, _ => none
  | fuel + 1, start, acc =>
    if start < (text.length : Int) then
      let e := min (start + chunkSize) (text.length : Int)
      let chunk := (jsSlice text start e).trim
      let acc2 := if chunk.length > 0 then acc ++ [chunk] else acc
      let start2 := e - overlap
      if start2 ≥ (text.length : Int) then some acc2
      else splitTextLoop text chunkSize overlap fuel start2 acc2
    else some acc

/-- `splitText(text, chunkSize, overlap)` (chat-original.js line 243),
fuel-indexed: `some chunks` is a normal return, `none` means the loop ran
longer than the supplied fuel. -/
def splitText (text : String) (chunkSize overlap : Int) (fuel : Nat) :
    Option (List String) :=
  splitTextLoop text chunkSize overlap fuel 0 []

/-! ## Data model

Chunks, scraped content and ranking results as the JavaScript builds them
(section names and type tags are plain strings in the source). -/

/-- A retrieval chunk `{ content, section, type }` as pushed by
`splitIntoChunks` (chat-original.js lines 208-213) and
`createSimpleChunks` (chat.js lines 244-248).  The JS field `section` is a
Lean keyword, so it is called `sectionName` here. -/
structure KChunk where
  content : String
  sectionName : String
  type : String
  deriving DecidableEq

/-- The flat scraped-content shape of the chat.js variant
(`scrapePortfolio`, chat.js lines 200-209): one string per section plus
the full-page text.  An absent section is the empty string. -/
structure SimpleScraped where
  about : String
  skills : String
  experience : String
  education : String
  projects : String
  certificates : String
  contact : String
  fullContent : String
  deriving DecidableEq

/-- Section lookup on the flat content object (`content[section]`). -/
def sectionText (c : SimpleScraped) : String → String
  | "about" => c.about
  | "skills" => c.skills
  | "experience" => c.experience
  | "education" => c.education
  | "projects" => c.projects
  | "certificates" => c.certificates
  | "contact" => c.contact
  | _ => ""

/-- The section enumeration order iterated by `createSimpleChunks`
(chat.js line 239). -/
def simpleSections : List String :=
  ["about", "skills", "experience", "education", "projects", "certificates", "contact"]

/-- The priority sections of `splitIntoChunks` (chat-original.js line
200), in the order the source iterates them. -/
def prioritySections : List String :=
  ["about", "skills", "projects", "experience"]

/-- The secondary sections of `splitIntoChunks` (chat-original.js line
201). -/
def otherSections : List String :=
  ["education", "certificates", "contact"]

/-- Whether a section belongs to the priority group. -/
def isPrioritySection (s : String) : Bool :=
  prioritySections.contains s

/-- `createSimpleChunks(content)` (chat.js lines 237-254): iterate the
seven sections in enumeration order and push one `structured` chunk per
section whose text is longer than 50 characters. -/
def createSimpleChunks (c : SimpleScraped) : List KChunk :=
  simpleSections.filterMap (fun s =>
    let text := sectionText c s
    if 50 < text.length then some ⟨text, s, "structured"⟩ else none)

/-! ## Keyword ranking
(`findRelevantContentSimple`, chat-original.js lines 337-370, and
`findRelevantContent`, chat.js lines 259-292.)

Both rankers lowercase the query, split it on whitespace, keep words
longer than two characters, and count the matches of
`new RegExp(word, 'g')` in the lowercased chunk text.  The `RegExp`
constructor is modelled conservatively: a word made only of alphanumeric
characters is a literal pattern whose match count is the number of
non-overlapping occurrences; any other word is modelled as the
exceptional case.  The model is exact on every input used in the
theorems below — in particular `"((("` is an unterminated group, on which
the JavaScript `RegExp` constructor throws a `SyntaxError`.  Scores are
modelled over `ℚ` (the boost factors 1.5 and 1.2 are exact sign-preserving
multiplications in IEEE arithmetic, and only sign and comparison of
scores matter in the statements). -/

/-- `toLowerCase`, applied characterwise. -/
def lowerStr (s : String) : String :=
  String.mk (s.data.map Char.toLower)

/-- Whitespace split.  Splitting on each whitespace character produces
empty tokens inside whitespace runs where `split(/\s+/)` produces none;
the difference disappears under the length-`> 2` filter applied next, so
the two agree on every tokenised query. -/
def splitWsAux (cur : List Char) : List Char → List String
  | [] => [String.mk cur.reverse]
  | c :: cs =>
    if c.isWhitespace then String.mk cur.reverse :: splitWsAux [] cs
    else splitWsAux (c :: cur) cs

/-- Query tokenization
(`query.toLowerCase().split(/\s+/).filter(word => word.length > 2)`). -/
def queryWordsOf (query : String) : List String :=
  (splitWsAux [] (lowerStr query).data).filter (fun w => 2 < w.length)

/-- Non-overlapping occurrence count of a literal pattern, as
`(text.match(new RegExp(word, 'g')) || []).length` computes it for a
pattern without metacharacters.  The fuel argument (instantiated with the
text length, an upper bound on the number of steps, by
`countOccurrences`) only makes the recursion structural. -/
def countOccAux (pat : List Char) : Nat → List Char → Nat
  | _, [] => 0
  | 0, _ => 0
  | fuel + 1, c :: cs =>
    if pat.isPrefixOf (c :: cs) then
      1 + countOccAux pat fuel (List.drop (pat.length - 1) cs)
    else
      countOccAux pat fuel cs

/-- Occurrence count lifted to strings. -/
def countOccurrences (pat text : String) : Nat :=
  countOccAux pat.data text.data.length text.data

/-- Conservative model of which query words yield a well-formed literal
`RegExp` (see the section comment above). -/
def regexLiteralWord (w : String) : Bool :=
  w.data.all Char.isAlphanum

/-- The inner `queryWords.forEach` accumulation (chat-original.js lines
347-351): add the match count of every query word to the score,
propagating a `RegExp` `SyntaxError` as `Except.error`. -/
def sumMatches (qws : List String) (text : String) : Except Unit ℚ :=
  match qws with
  | [] => .ok 0
  | w :: ws =>
    if regexLiteralWord w then
      match sumMatches ws text with
      | .ok s => .ok ((countOccurrences w text : ℚ) + s)
      | .error e => .error e
    else .error ()

/-- A `{ index, similarity, chunk }` entry of the ranked list. -/
structure RankResult where
  index : Nat
  similarity : ℚ
  chunk : KChunk
  deriving DecidableEq

deriving instance DecidableEq for Except

/-- One insertion step of a stable descending sort by `similarity`:
an element is placed before the first strictly smaller one, keeping the
original order among equals — the behaviour of the stable JS
`sort((a, b) => b.similarity - a.similarity)`. -/
def insertDesc (x : RankResult) : List RankResult → List RankResult
  | [] => [x]
  | y :: ys =>
    if y.similarity ≤ x.similarity then x :: y :: ys
    else y :: insertDesc x ys

/-- Stable descending sort by `similarity`
(`relevantChunks.sort((a, b) => b.similarity - a.similarity)`). -/
def sortDesc (l : List RankResult) : List RankResult :=
  l.foldr insertDesc []

/-- The `chunks.forEach` scoring pass shared by both keyword rankers,
parameterised by the score boost each variant applies: sum the per-word
match counts, boost, and push `{index, similarity, chunk}` when the score
is positive, with `similarity = score / queryWords.length`. -/
def scoreChunks (qws : List String) (boost : KChunk → ℚ → ℚ) :
    List KChunk → Nat → Except Unit (List RankResult)
  | [], _ => .ok []
  | c :: cs, i =>
    match sumMatches qws (lowerStr c.content) with
    | .error e => .error e
    | .ok raw =>
      match scoreChunks qws boost cs (i + 1) with
      | .error e => .error e
      | .ok rest =>
        .ok (if 0 < boost c raw then
          ⟨i, boost c raw / (qws.length : ℚ), c⟩ :: rest
        else rest)

/-- The boost of `findRelevantContentSimple` (chat-original.js lines
353-356): multiply by 1.5 when the chunk is priority-typed. -/
def boostSimple (c : KChunk) (score : ℚ) : ℚ :=
  if c.type = "priority" then score * (3 / 2) else score

/-- The boost of chat.js `findRelevantContent` (lines 275-278): multiply
by 1.2 when the chunk's section is about, skills or projects. -/
def boostSections (c : KChunk) (score : ℚ) : ℚ :=
  if c.sectionName ∈ (["about", "skills", "projects"] : List String) then
    score * (6 / 5)
  else score

/-- `findRelevantContentSimple(query, chunks, topK)` (chat-original.js
lines 337-370): score every chunk, keep the positive scores, sort
descending and return the first `topK`.  `Except.error` models the
uncaught `SyntaxError` thrown by `new RegExp(word, 'g')`. -/
def findRelevantContentSimple (query : String) (chunks : List KChunk)
    (topK : Nat) : Except Unit (List RankResult) :=
  let qws := queryWordsOf query
  match scoreChunks qws boostSimple chunks 0 with
  | .error e => .error e
  | .ok scored => .ok ((sortDesc scored).take topK)

/-- chat.js `findRelevantContent(query, chunks, topK)` (lines 259-292):
identical to `findRelevantContentSimple` except for the section-based
1.2 boost. -/
def findRelevantContent (query : String) (chunks : List KChunk)
    (topK : Nat) : Except Unit (List RankResult) :=
  let qws := queryWordsOf query
  match scoreChunks qws boostSections chunks 0 with
  | .error e => .error e
  | .ok scored => .ok ((sortDesc scored).take topK)

/-! ## Embeddings and the RAG cache
(`generateEmbeddings` and `warmUpCache`, chat-original.js lines 265-332
and 28-97; `warmUpCache`, chat.js lines 297-329.)

`splitIntoChunks` is built on `splitText`, which never returns on any
non-empty section text (see `splitText_never_terminates` below), so the
cache-update logic is stated over an abstract chunking step
`chunker : ScrapedContent → List KChunk`: every theorem about it holds
for whatever chunk list the chunking step would produce. -/

/-- The zero-vector placeholder `new Array(768).fill(0)`. -/
def zeroVec : List ℚ :=
  List.replicate 768 0

/-- `generateEmbeddings(chunks, apiKey)` (chat-original.js lines
265-332).  The per-chunk embedding call is abstracted by
`oracle : Nat → Option (List ℚ)`: `none` models a non-2xx response or a
thrown per-chunk error, `some v` a response whose `embedding.values`
decoded to `v` (possibly empty, `data.embedding?.values || []`).  Each
loop iteration pushes exactly one vector: the response values when
non-empty, the zero-vector placeholder otherwise. -/
def generateEmbeddings (chunks : List KChunk)
    (oracle : Nat → Option (List ℚ)) : List (List ℚ) :=
  (List.range chunks.length).map (fun i =>
    match oracle i with
    | some v => if v.isEmpty then zeroVec else v
    | none => zeroVec)

/-- The structured sections of the chat-original scrape
(`scrapePortfolio`, lines 112-121).  A key absent from a JS object
literal reads as `undefined`; like the empty string it fails every
`length > 50` guard, so both are modelled as `""`. -/
structure Structured where
  about : String
  skills : String
  experience : String
  education : String
  projects : String
  certificates : String
  contact : String
  deriving DecidableEq

/-- The content object of the chat-original variant:
`{ structured, fullContent, timestamp }`. -/
structure ScrapedContent where
  structured : Structured
  fullContent : String
  timestamp : Nat
  deriving DecidableEq

/-- The fallback content built by `warmUpCache`'s catch branch
(chat-original.js lines 75-84). -/
def fallbackContentWarm (t : Nat) : ScrapedContent where
  structured :=
    { about := "Ahmed Hazem Elabady - Junior Data Scientist from Cairo, Egypt"
      skills := "Python, Machine Learning, Data Analysis, Web Scraping, Computer Vision"
      experience := "Computer Vision Trainee at NTI, AI & Data Science Trainee at DEPI"
      education := ""
      projects := "Waste Detection using YOLO, Land Type Classification, COVID-19 X-ray Detection"
      certificates := ""
      contact := "" }
  fullContent := "Ahmed Hazem Elabady portfolio content"
  timestamp := t

/-- The RAG cache record `portfolioCache` (chat-original.js lines
14-20); `none` models the initial `null` fields. -/
structure RagCache where
  content : Option ScrapedContent
  chunks : Option (List KChunk)
  embeddings : Option (List (List ℚ))
  lastUpdated : Option Nat
  isWarmingUp : Bool

/-- `warmUpCache(geminiApiKey)` (chat-original.js lines 28-97) as a
state transformer.  The parameters abstract the effects the body awaits:
`scraped` is the `scrapePortfolio()` result (that function catches its
own failures and returns static fallback content rather than throwing),
`chunker` the chunking step, `oracle` the per-chunk embedding responses,
`embedAllFail` whether the `generateEmbeddings` promise rejected as a
whole (the inner catch at lines 54-57), `bodyThrows` whether the `try`
body threw (the catch branch at lines 70-96), and `now`, `t2` the
observed clock readings.  An entry that sees `isWarmingUp = true`
returns immediately (lines 29-32); otherwise the body installs a fresh
cache record with the flag cleared, in the success branch and in the
catch branch alike. -/
def warmUpCacheRag (st : RagCache) (scraped : ScrapedContent)
    (chunker : ScrapedContent → List KChunk)
    (oracle : Nat → Option (List ℚ)) (embedAllFail : Bool)
    (bodyThrows : Bool) (now t2 : Nat) : RagCache :=
  if st.isWarmingUp then st
  else if bodyThrows then
    { content := some (fallbackContentWarm t2)
      chunks := some (chunker (fallbackContentWarm t2))
      embeddings := some ((chunker (fallbackContentWarm t2)).map (fun _ => zeroVec))
      lastUpdated := some t2
      isWarmingUp := false }
  else
    { content := some scraped
      chunks := some (chunker scraped)
      embeddings := some (if embedAllFail then
          (chunker scraped).map (fun _ => zeroVec)
        else generateEmbeddings (chunker scraped) oracle)
      lastUpdated := some now
      isWarmingUp := false }

/-- The keyword-only cache record (chat.js lines 176-181). -/
structure SimpleCache where
  content : Option SimpleScraped
  chunks : Option (List KChunk)
  lastUpdated : Option Nat
  isWarmingUp : Bool

/-- chat.js `warmUpCache()` (lines 297-329): on success install the
scraped content, its `createSimpleChunks` output and the timestamp with
the flag cleared; the catch branch (lines 325-328) only clears the
flag. -/
def warmUpCacheSimple (st : SimpleCache) (scraped : SimpleScraped)
    (bodyThrows : Bool) (now : Nat) : SimpleCache :=
  if st.isWarmingUp then st
  else if bodyThrows then
    { st with isWarmingUp := false }
  else
    { content := some scraped
      chunks := some (createSimpleChunks scraped)
      lastUpdated := some now
      isWarmingUp := false }

/-! ## Scoring-mode selection
(`findRelevantChunks`, chat-original.js lines 397-453.) -/

/-- Which scoring strategy serves a request. -/
inductive Mode
  | vector
  | keyword
  deriving DecidableEq

/-- The `hasValidEmbeddings` guard (chat-original.js lines 401-403):
embeddings non-null and non-empty, first entry non-null and non-empty,
and the **first** entry not identically zero
(`!embeddings[0].every(val => val === 0)`). -/
def hasValidEmbeddings (embeddings : Option (List (List ℚ))) : Bool :=
  match embeddings with
  | none => false
  | some [] => false
  | some (e0 :: _) => !e0.isEmpty && !(e0.all (fun v => v == 0))

/-- The scoring mode `findRelevantChunks` ends up using: keyword
matching when the guard fails (line 405), otherwise vector scoring
unless embedding the query fails — a non-2xx response or thrown fetch
error (`queryEmbed = none`), or empty `embedding.values` (`some []`),
all of which land in the catch that falls back to
`findRelevantContentSimple` (lines 426-434 and 448-452). -/
def findRelevantChunksMode (embeddings : Option (List (List ℚ)))
    (queryEmbed : Option (List ℚ)) : Mode :=
  if hasValidEmbeddings embeddings then
    match queryEmbed with
    | some q => if q.isEmpty then .keyword else .vector
    | none => .keyword
  else .keyword

/-- The spec's wording of "non-degenerate": **not all** entries of the
embedding set are the zero-vector placeholder.  Stated from the spec's
words, for comparison with the source's `hasValidEmbeddings`, which
inspects only the first entry. -/
def specNonDegenerate (embeddings : List (List ℚ)) : Bool :=
  !(embeddings.all (fun e => e.all (fun v => v == 0)))

/-! ## TTL
(`CACHE_DURATION` and the cache-validity check, chat-original.js lines
23 and 531-537.) -/

/-- `CACHE_DURATION = 60 * 60 * 1000`. -/
def CACHE_DURATION : Nat :=
  60 * 60 * 1000

/-- The cache-validity test of the handler (lines 533-535):
`content && lastUpdated && (now - lastUpdated) < CACHE_DURATION`.
`lastUpdated` is a JS number and `0` is falsy; the subtraction never
underflows because `lastUpdated` is a past `Date.now()` reading.  The
handler triggers a refresh exactly when this test is false (line 537). -/
def cacheValidAt (contentPresent : Bool) (lastUpdated : Option Nat)
    (now : Nat) : Bool :=
  contentPresent &&
    (match lastUpdated with
      | none => false
      | some t => (t != 0) && (now - t < CACHE_DURATION))

/-! ## Cosine similarity
(`cosineSimilarity`, chat-original.js lines 375-392), modelled in exact
real arithmetic: the JS doubles are idealised as reals and `Math.sqrt`
as `Real.sqrt`. -/

/-- `Σ aᵢ·bᵢ` over the common indices — the `dotProduct` accumulator of
the source loop.  With equal-length inputs (the only case that reaches
the loop, after the length guard) `listDot a a` and `listDot b b` are
the `normA` and `normB` accumulators. -/
def listDot (a b : List ℝ) : ℝ :=
  (List.zipWith (fun x y => x * y) a b).sum

/-- `cosineSimilarity(vecA, vecB)`: 0 when the lengths differ (the
null/length guard, lines 376-378), else
`dotProduct / (Math.sqrt(normA) * Math.sqrt(normB))`, defined as 0 when
the denominator is 0 (line 391). -/
noncomputable def cosineSimilarity (a b : List ℝ) : ℝ :=
  if a.length ≠ b.length then 0
  else if Real.sqrt (listDot a a) * Real.sqrt (listDot b b) = 0 then 0
  else listDot a b / (Real.sqrt (listDot a a) * Real.sqrt (listDot b b))

/-! ## Concurrency: warm-up single-flight and the inline refresh
(chat-original.js `handler` lines 515-593 and `warmUpCache` entry lines
28-36.)

Node serves requests cooperatively: code between two `await`s runs
atomically, and calling the `async` `warmUpCache` executes its body
synchronously up to its first `await` — in particular the `isWarmingUp`
check-and-set.  The model is a small-step transition system over two
concurrently arrived `POST /api/chat` requests (valid message, key
present, cache initially empty) and the warm-up tasks they may spawn; a
schedule picks which task performs its next atomic step, and stepping a
task that is not runnable leaves the state unchanged (so every `List
Tid` is a valid schedule).  `fetchCount` counts the calls of the
content-fetch capability — one per `scrapePortfolio()` call, i.e. one
per started fetch-and-chunk-and-embed cycle.  `scrapePortfolio` catches
its own failures, so only its normal return is modelled, and the
chunk/embed stages of a cycle (which never touch the flags) are
collapsed into the install step.  All clock readings fall inside one
`CACHE_DURATION` window, so a present cache content is a fresh one. -/

/-- Program counter of a spawned warm-up task. -/
inductive WarmPC
  | idle
  | fetching
  | netWait
  | done
  deriving DecidableEq

/-- Program counter of a request handler. -/
inductive ReqPC
  | start
  | poll (r : Nat)
  | inlineWait
  | finished
  deriving DecidableEq

/-- The shared mutable state plus the four task counters:
`contentPresent`/`warming` mirror the truthiness of
`portfolioCache.content`/`portfolioCache.isWarmingUp`. -/
structure Sys where
  contentPresent : Bool
  warming : Bool
  fetchCount : Nat
  warm1 : WarmPC
  warm2 : WarmPC
  req1 : ReqPC
  req2 : ReqPC
  deriving DecidableEq

/-- Task identifiers for the scheduler. -/
inductive Tid
  | req1
  | req2
  | warm1
  | warm2
  deriving DecidableEq

/-- Result of one atomic request step: its new program counter, the new
counter of its own warm-up task, the new shared flags and the number of
fetch calls it just issued. -/
structure ReqOut where
  pc : ReqPC
  warm : WarmPC
  warming : Bool
  contentPresent : Bool
  fetchDelta : Nat

/-- One atomic step of a request handler.
`start`: the synchronous prefix of the handler — spawn `warmUpCache` if
the cache is empty and nobody is warming (the spawned body sets
`isWarmingUp` before its first `await`, lines 29-35), then enter the
poll loop iff `isWarmingUp` is set (lines 516-524), else fall through
the validity check (lines 531-537).
`poll r`: one `while (isWarmingUp && retries < 30)` iteration (lines
525-528); when the loop exits, the validity check runs in the same tick
and an invalid (still empty) cache starts the **unguarded** inline
refresh (lines 537-593), issuing a fetch.
`inlineWait`: the inline refresh completes and installs
`{content, chunks, embeddings, lastUpdated}` — an object without an
`isWarmingUp` field, which therefore reads as `undefined` (falsy). -/
def reqStepCore (content warming : Bool) (pc : ReqPC) (warm : WarmPC) :
    ReqOut :=
  match pc with
  | .start =>
    if !content && !warming then ⟨.poll 0, .fetching, true, content, 0⟩
    else if warming then ⟨.poll 0, warm, warming, content, 0⟩
    else ⟨.finished, warm, warming, content, 0⟩
  | .poll r =>
    if warming && decide (r < 30) then ⟨.poll (r + 1), warm, warming, content, 0⟩
    else if content then ⟨.finished, warm, warming, content, 0⟩
    else ⟨.inlineWait, warm, warming, content, 1⟩
  | .inlineWait => ⟨.finished, warm, false, true, 0⟩
  | .finished => ⟨.finished, warm, warming, content, 0⟩

/-- One step of the scheduled task.  A warm-up task issues its fetch
(`await scrapePortfolio()`, line 42) and later installs the cache record
with `isWarmingUp: false` (lines 60-66). -/
def step (s : Sys) (t : Tid) : Sys :=
  match t with
  | .req1 =>
    let o := reqStepCore s.contentPresent s.warming s.req1 s.warm1
    { s with
        req1 := o.pc
        warm1 := o.warm
        warming := o.warming
        contentPresent := o.contentPresent
        fetchCount := s.fetchCount + o.fetchDelta }
  | .req2 =>
    let o := reqStepCore s.contentPresent s.warming s.req2 s.warm2
    { s with
        req2 := o.pc
        warm2 := o.warm
        warming := o.warming
        contentPresent := o.contentPresent
        fetchCount := s.fetchCount + o.fetchDelta }
  | .warm1 =>
    match s.warm1 with
    | .fetching => { s with warm1 := .netWait, fetchCount := s.fetchCount + 1 }
    | .netWait => { s with warm1 := .done, contentPresent := true, warming := false }
    | _ => s
  | .warm2 =>
    match s.warm2 with
    | .fetching => { s with warm2 := .netWait, fetchCount := s.fetchCount + 1 }
    | .netWait => { s with warm2 := .done, contentPresent := true, warming := false }
    | _ => s

/-- Two concurrent requests against the empty cache. -/
def initSys : Sys :=
  ⟨false, false, 0, .idle, .idle, .start, .start⟩

/-- Run a schedule from the initial state. -/
def runSched (sched : List Tid) : Sys :=
  sched.foldl step initSys

/-- A warm-up task is inside the `warmUpCache` body: it has passed the
`isWarmingUp` guard and has not yet installed its cache record. -/
def warmActive : WarmPC → Bool
  | .idle => false
  | .fetching => true
  | .netWait => true
  | .done => false

/-- At most one `warmUpCache` body in flight. -/
def warmBodiesExclusive (s : Sys) : Bool :=
  !(warmActive s.warm1 && warmActive s.warm2)

/-- The inductive invariant behind `warmBodiesExclusive`: whenever a
warm-up body is in flight, the `isWarmingUp` flag is still set or the
cache content has been installed — which is exactly what makes the
spawn guard `!content && !warming` fail for every later request. -/
def SysInv (s : Sys) : Prop :=
  warmBodiesExclusive s = true ∧
    ((warmActive s.warm1 || warmActive s.warm2) = true →
      (s.warming || s.contentPresent) = true)

/-! ## Theorems -/

theorem splitTextLoop_none (text : String) (chunkSize overlap : Int)
    (hov : 0 < overlap) :
    ∀ (fuel : Nat) (start : Int) (acc : List String),
      start < (text.length : Int) →
      splitTextLoop text chunkSize overlap fuel start acc = none := by
  intro fuel
  induction fuel with
  | zero => intro start acc _; rfl
  | succ n ih =>
    intro start acc hstart
    have hmin : min (start + chunkSize) (text.length : Int) - overlap
        < (text.length : Int) := by
      have h1 : min (start + chunkSize) (text.length : Int) ≤ (text.length : Int) :=
        min_le_right _ _
      omega
    simp only [splitTextLoop, if_pos hstart, if_neg (not_le.mpr hmin)]
    exact ih _ _ hmin

/-- **C1.** The sliding-window split does **not** terminate.  For every
non-empty text and every positive overlap (in particular the parameters
actually used, `chunkSize = 800`, `overlap = 100`), the `while` loop in
`splitText` never exits, no matter how much fuel it is given: the source
advances with `start = end - overlap` where `end = min(start + chunkSize,
text.length)`, so once the window is clipped at the end of the text,
`start` is stuck at `text.length - overlap < text.length` and the final
window is re-emitted forever. -/
theorem splitText_never_terminates (text : String) (chunkSize overlap : Int)
    (fuel : Nat) (hov : 0 < overlap) (hne : 0 < text.length) :
    splitText text chunkSize overlap fuel = none := by
  apply splitTextLoop_none text chunkSize overlap hov fuel 0 []
  exact_mod_cast hne

/-- Witness for `splitText_never_terminates`: the hard-coded fallback
`about` section (61 characters, above the 50-character threshold) with
the parameters used by `splitIntoChunks` never yields a chunk list. -/
theorem splitText_never_terminates_witness :
    (0 : Int) < 100 ∧
      0 < ("Ahmed Hazem Elabady - Junior Data Scientist from Cairo, Egypt" : String).length ∧
      splitText "Ahmed Hazem Elabady - Junior Data Scientist from Cairo, Egypt"
        800 100 5000 = none :=
  ⟨by decide, by decide,
    splitText_never_terminates _ 800 100 5000 (by decide) (by decide)⟩

theorem filterMap_sectionNames (c : SimpleScraped) :
    ∀ ss : List String,
      ((ss.filterMap (fun s =>
          let text := sectionText c s
          if 50 < text.length then
            some (⟨text, s, "structured"⟩ : KChunk)
          else none)).map KChunk.sectionName)
        = ss.filter (fun s => 50 < (sectionText c s).length) := by
  intro ss
  induction ss with
  | nil => rfl
  | cons s ss ih =>
    by_cases h : 50 < (sectionText c s).length
    · simp [List.filterMap_cons, List.filter_cons, h, ih]
    · simp [List.filterMap_cons, List.filter_cons, h, ih]

/-- **C6 counterexample.**  The claimed ordering — all priority-section
chunks before all secondary-section chunks — is false for
`createSimpleChunks`: on a content whose education and projects sections
both exceed 50 characters, the produced chunk list has the `education`
chunk (a secondary section of `splitIntoChunks`) **before** the
`projects` chunk (a priority section), because `createSimpleChunks`
iterates the sections in the single flat order
about, skills, experience, education, projects, certificates, contact. -/
theorem chunk_ordering_counterexample :
    ((createSimpleChunks ⟨"", "", "",
        "B.Sc. Computer Science and Artificial Intelligence at Benha Faculty",
        "Waste Detection using YOLO, Land Type Classification, COVID-19 X-ray Detection",
        "", "", ""⟩).map KChunk.sectionName) = ["education", "projects"] ∧
      isPrioritySection "education" = false ∧
      isPrioritySection "projects" = true := by
  refine ⟨by decide, by decide, by decide⟩

/-- **C6 amended.**  `createSimpleChunks` emits chunks in the single
fixed section order about → skills → experience → education → projects →
certificates → contact (sections at or below the 50-character threshold
omitted); there is no priority-before-secondary grouping.  Formally, the
section names of the produced chunks are exactly the enumeration list
filtered by the length threshold — in particular a sublist of the
enumeration order. -/
theorem createSimpleChunks_section_order (c : SimpleScraped) :
    ((createSimpleChunks c).map KChunk.sectionName)
        = simpleSections.filter (fun s => 50 < (sectionText c s).length) ∧
      List.Sublist ((createSimpleChunks c).map KChunk.sectionName)
        simpleSections := by
  have h := filterMap_sectionNames c simpleSections
  refine ⟨h, ?_⟩
  rw [createSimpleChunks, h]
  exact List.filter_sublist _

theorem insertDesc_perm (x : RankResult) :
    ∀ l : List RankResult, List.Perm (insertDesc x l) (x :: l) := by
  intro l
  induction l with
  | nil => exact List.Perm.refl _
  | cons y ys ih =>
    by_cases h : y.similarity ≤ x.similarity
    · simp only [insertDesc, if_pos h]
      exact List.Perm.refl _
    · simp only [insertDesc, if_neg h]
      exact List.Perm.trans (List.Perm.cons y ih) (List.Perm.swap x y ys)

theorem sortDesc_perm : ∀ l : List RankResult, List.Perm (sortDesc l) l := by
  intro l
  induction l with
  | nil => exact List.Perm.refl _
  | cons x xs ih =>
    exact List.Perm.trans (insertDesc_perm x (sortDesc xs)) (List.Perm.cons x ih)

theorem sumMatches_nonneg :
    ∀ (qws : List String) (text : String) (s : ℚ),
      sumMatches qws text = .ok s → 0 ≤ s := by
  intro qws
  induction qws with
  | nil =>
    intro text s h
    simp only [sumMatches, Except.ok.injEq] at h
    exact h ▸ le_refl 0
  | cons w ws ih =>
    intro text s h
    simp only [sumMatches] at h
    by_cases hw : regexLiteralWord w
    · rw [if_pos hw] at h
      cases hrec : sumMatches ws text with
      | ok s0 =>
        rw [hrec] at h
        simp only [Except.ok.injEq] at h
        subst h
        have h0 := ih text s0 hrec
        have h1 : (0 : ℚ) ≤ (countOccurrences w text : ℚ) := Nat.cast_nonneg _
        linarith
      | error e =>
        rw [hrec] at h
        simp at h
    · rw [if_neg hw] at h
      simp at h

theorem scoreChunks_pos (qws : List String) (boost : KChunk → ℚ → ℚ)
    (hb0 : ∀ c, boost c 0 = 0) :
    ∀ (cs : List KChunk) (i : Nat) (res : List RankResult),
      scoreChunks qws boost cs i = .ok res →
      ∀ x ∈ res, 0 < x.similarity := by
  intro cs
  induction cs with
  | nil =>
    intro i res h x hx
    simp only [scoreChunks, Except.ok.injEq] at h
    subst h
    simp at hx
  | cons c cs ih =>
    intro i res h x hx
    simp only [scoreChunks] at h
    cases hsum : sumMatches qws (lowerStr c.content) with
    | error e =>
      rw [hsum] at h
      simp at h
    | ok raw =>
      rw [hsum] at h
      cases hrec : scoreChunks qws boost cs (i + 1) with
      | error e =>
        rw [hrec] at h
        simp at h
      | ok rest =>
        rw [hrec] at h
        simp only [Except.ok.injEq] at h
        subst h
        by_cases hpos : 0 < boost c raw
        · rw [if_pos hpos] at hx
          rcases List.mem_cons.mp hx with hx1 | hx2
          · subst hx1
            have hqne : qws ≠ [] := by
              intro hnil
              subst hnil
              simp only [sumMatches, Except.ok.injEq] at hsum
              rw [← hsum, hb0] at hpos
              exact lt_irrefl 0 hpos
            have hlen : 0 < ((qws.length : ℚ)) := by
              have hp := List.length_pos.mpr hqne
              exact_mod_cast hp
            exact div_pos hpos hlen
          · exact ih (i + 1) rest hrec x hx2
        · rw [if_neg hpos] at hx
          exact ih (i + 1) rest hrec x hx

/-- **C9.**  Keyword-mode relevance scores are non-negative (the raw
score is a sum of occurrence counts), and every entry of a result list
returned by either keyword ranker — `findRelevantContentSimple`
(chat-original.js) or `findRelevantContent` (chat.js) — has a strictly
positive similarity: a chunk whose score is 0 is never pushed into
`relevantChunks`, and sorting plus `slice(0, topK)` only selects from
the pushed entries. -/
theorem keyword_scores_positive :
    (∀ (qws : List String) (text : String) (s : ℚ),
        sumMatches qws text = .ok s → 0 ≤ s) ∧
      (∀ (query : String) (chunks : List KChunk) (topK : Nat)
          (res : List RankResult),
          findRelevantContentSimple query chunks topK = .ok res →
          ∀ x ∈ res, 0 < x.similarity) ∧
      (∀ (query : String) (chunks : List KChunk) (topK : Nat)
          (res : List RankResult),
          findRelevantContent query chunks topK = .ok res →
          ∀ x ∈ res, 0 < x.similarity) := by
  refine ⟨sumMatches_nonneg, ?_, ?_⟩
  · intro query chunks topK res h x hx
    simp only [findRelevantContentSimple] at h
    cases hsc : scoreChunks (queryWordsOf query) boostSimple chunks 0 with
    | error e =>
      rw [hsc] at h
      simp at h
    | ok scored =>
      rw [hsc] at h
      simp only [Except.ok.injEq] at h
      subst h
      have hx2 : x ∈ scored :=
        (sortDesc_perm scored).mem_iff.mp (List.mem_of_mem_take hx)
      exact scoreChunks_pos (queryWordsOf query) boostSimple
        (fun c => by simp [boostSimple]) chunks 0 scored hsc x hx2
  · intro query chunks topK res h x hx
    simp only [findRelevantContent] at h
    cases hsc : scoreChunks (queryWordsOf query) boostSections chunks 0 with
    | error e =>
      rw [hsc] at h
      simp at h
    | ok scored =>
      rw [hsc] at h
      simp only [Except.ok.injEq] at h
      subst h
      have hx2 : x ∈ scored :=
        (sortDesc_perm scored).mem_iff.mp (List.mem_of_mem_take hx)
      exact scoreChunks_pos (queryWordsOf query) boostSections
        (fun c => by simp [boostSections]) chunks 0 scored hsc x hx2

/-- Witness for `keyword_scores_positive`: on the query
`"skills python"` and a single priority skills chunk, the ranker returns
one entry with similarity `3/2 > 0`. -/
theorem keyword_scores_positive_witness :
    (0 : ℚ) <
      (RankResult.mk 0 (3 / 2)
        ⟨"python and machine learning skills", "skills", "priority"⟩).similarity := by
  have heval : findRelevantContentSimple "skills python"
      [⟨"python and machine learning skills", "skills", "priority"⟩] 3 =
      .ok [⟨0, 3 / 2, ⟨"python and machine learning skills", "skills", "priority"⟩⟩] := by
    have hq : queryWordsOf "skills python" = ["skills", "python"] := by decide
    have h1 : countOccurrences "skills"
        (lowerStr "python and machine learning skills") = 1 := by decide
    have h2 : countOccurrences "python"
        (lowerStr "python and machine learning skills") = 1 := by decide
    have hr1 : regexLiteralWord "skills" = true := by decide
    have hr2 : regexLiteralWord "python" = true := by decide
    rw [findRelevantContentSimple]
    rw [hq]
    rw [scoreChunks, sumMatches, sumMatches, sumMatches]
    rw [hr1, hr2]
    simp only [if_true, h1, h2, scoreChunks, boostSimple]
    norm_num [sortDesc, insertDesc, List.take]
  exact keyword_scores_positive.2.1 "skills python"
    [⟨"python and machine learning skills", "skills", "priority"⟩] 3
    [⟨0, 3 / 2, ⟨"python and machine learning skills", "skills", "priority"⟩⟩]
    heval _ (by simp)

/-- **C5** (code bug).  The ranking is **not** total: the query words are
compiled with `new RegExp(word, 'g')` without escaping, so the query
`"((( skills"` (first word an unterminated group) makes the ranker throw
a `SyntaxError` on any non-empty chunk list, contradicting "ranking never
raises".  The graceful-degradation parts do hold: an empty chunk list
yields an empty result for every query and `topK`, and when `topK`
exceeds the number of relevant chunks all available entries are returned
(here 1 entry for `topK = 5`) rather than raising. -/
theorem rank_raises_on_regex_query :
    findRelevantContentSimple "((( skills"
        [⟨"python and machine learning skills", "skills", "priority"⟩] 3 =
        .error () ∧
      (∀ (query : String) (topK : Nat),
          findRelevantContentSimple query [] topK = .ok []) ∧
      findRelevantContentSimple "skills python"
        [⟨"python and machine learning skills", "skills", "priority"⟩] 5 =
        .ok [⟨0, 3 / 2,
          ⟨"python and machine learning skills", "skills", "priority"⟩⟩] := by
  refine ⟨by decide, fun query topK => ?_, ?_⟩
  · simp [findRelevantContentSimple, scoreChunks, sortDesc]
  have hq : queryWordsOf "skills python" = ["skills", "python"] := by decide
  have h1 : countOccurrences "skills"
      (lowerStr "python and machine learning skills") = 1 := by decide
  have h2 : countOccurrences "python"
      (lowerStr "python and machine learning skills") = 1 := by decide
  have hr1 : regexLiteralWord "skills" = true := by decide
  have hr2 : regexLiteralWord "python" = true := by decide
  rw [findRelevantContentSimple]
  rw [hq]
  rw [scoreChunks, sumMatches, sumMatches, sumMatches]
  rw [hr1, hr2]
  simp only [if_true, h1, h2, scoreChunks, boostSimple]
  norm_num [sortDesc, insertDesc, List.take]

/-- **C7.**  With `CACHE_DURATION = 3600000`, a cache populated at `t0`
is still valid — no refresh — for a request at `t0 + 3599999` and
invalid — refresh triggered — at `t0 + 3600001`; in general, once
populated, the cache is stale at a time `now ≥ t0` exactly when
`now - lastUpdated ≥ CACHE_DURATION`. -/
theorem ttl_correctness (t0 : Nat) (h0 : 0 < t0) :
    cacheValidAt true (some t0) (t0 + 3599999) = true ∧
      cacheValidAt true (some t0) (t0 + 3600001) = false ∧
      ∀ now : Nat, t0 ≤ now →
        (cacheValidAt true (some t0) now = false ↔
          CACHE_DURATION ≤ now - t0) := by
  refine ⟨?_, ?_, fun now hnow => ?_⟩ <;>
    simp [cacheValidAt, CACHE_DURATION] <;> omega

/-- Witness for `ttl_correctness` at `t0 = 1`. -/
theorem ttl_correctness_witness :
    cacheValidAt true (some 1) 3600000 = true ∧
      cacheValidAt true (some 1) 3600002 = false :=
  ⟨(ttl_correctness 1 (by decide)).1, (ttl_correctness 1 (by decide)).2.1⟩

/-- **C3.**  Index alignment.  `generateEmbeddings` pushes exactly one
vector per chunk, so its output length always equals the chunk count,
and a chunk whose embedding call failed (`none`, a non-2xx/thrown call)
or returned no values (`some []`) gets the zero-vector placeholder at
its own index — the array is never shortened.  Consequently every
completed `warmUpCache` refresh — success, all-embeddings-failed, or the
catch branch that installs fallback content — leaves `embeddings` and
`chunks` populated with equal lengths. -/
theorem embeddings_chunks_aligned :
    (∀ (chunks : List KChunk) (oracle : Nat → Option (List ℚ)),
        (generateEmbeddings chunks oracle).length = chunks.length ∧
          ∀ i : Nat, i < chunks.length →
            (oracle i = none ∨ oracle i = some []) →
            (generateEmbeddings chunks oracle).getD i [] = zeroVec) ∧
      ∀ (st : RagCache) (scraped : ScrapedContent)
        (chunker : ScrapedContent → List KChunk)
        (oracle : Nat → Option (List ℚ)) (embedAllFail bodyThrows : Bool)
        (now t2 : Nat),
        st.isWarmingUp = false →
        ((warmUpCacheRag st scraped chunker oracle embedAllFail bodyThrows
              now t2).embeddings.map List.length)
          = ((warmUpCacheRag st scraped chunker oracle embedAllFail bodyThrows
              now t2).chunks.map List.length) := by
  constructor
  · intro chunks oracle
    constructor
    · simp [generateEmbeddings]
    · intro i hi hfail
      have hmap : (generateEmbeddings chunks oracle).getD i [] =
          (match oracle i with
            | some v => if v.isEmpty then zeroVec else v
            | none => zeroVec) := by
        rw [generateEmbeddings, List.getD_eq_getElem?_getD,
          List.getElem?_map, List.getElem?_range hi]
        rfl
      rw [hmap]
      rcases hfail with h | h
      · rw [h]
      · rw [h]
        rfl
  · intro st scraped chunker oracle embedAllFail bodyThrows now t2 hflag
    rw [warmUpCacheRag, if_neg (by rw [hflag]; exact Bool.false_ne_true)]
    by_cases hb : bodyThrows = true
    · rw [if_pos hb]
      simp
    · rw [if_neg hb]
      by_cases he : embedAllFail = true
      · simp [he]
      · simp [he, generateEmbeddings]

/-- Witness for `embeddings_chunks_aligned`: a single chunk whose
embedding call errors still gets exactly one (zero) vector, and a
completed warm-up leaves the two arrays aligned. -/
theorem embeddings_chunks_aligned_witness :
    (generateEmbeddings [⟨"x", "about", "priority"⟩] (fun _ => none)).length = 1 ∧
      (generateEmbeddings [⟨"x", "about", "priority"⟩] (fun _ => none)).getD 0 []
        = zeroVec ∧
      ((warmUpCacheRag ⟨none, none, none, none, false⟩
          ⟨⟨"a", "b", "c", "d", "e", "f", "g"⟩, "full", 7⟩
          (fun _ => [⟨"x", "about", "priority"⟩]) (fun _ => none) false false
          1 2).embeddings.map List.length)
        = ((warmUpCacheRag ⟨none, none, none, none, false⟩
          ⟨⟨"a", "b", "c", "d", "e", "f", "g"⟩, "full", 7⟩
          (fun _ => [⟨"x", "about", "priority"⟩]) (fun _ => none) false false
          1 2).chunks.map List.length) :=
  ⟨(embeddings_chunks_aligned.1 [⟨"x", "about", "priority"⟩] (fun _ => none)).1,
    (embeddings_chunks_aligned.1 [⟨"x", "about", "priority"⟩] (fun _ => none)).2
      0 (by decide) (Or.inl rfl),
    embeddings_chunks_aligned.2 ⟨none, none, none, none, false⟩
      ⟨⟨"a", "b", "c", "d", "e", "f", "g"⟩, "full", 7⟩
      (fun _ => [⟨"x", "about", "priority"⟩]) (fun _ => none) false false
      1 2 rfl⟩

/-- **C10.**  A warm-up run that entered its body (the entry guard saw
`isWarmingUp = false`) always clears the flag when it settles — through
the success path or the catch branch, in the RAG variant
(chat-original.js) and the keyword variant (chat.js) alike — so a
request polling the flag never waits on a settled warm-up.  In the RAG
variant the catch branch moreover installs the fallback content together
with chunks and index-aligned all-zero embeddings. -/
theorem warmup_settles_with_flag_clear :
    (∀ (st : RagCache) (scraped : ScrapedContent)
        (chunker : ScrapedContent → List KChunk)
        (oracle : Nat → Option (List ℚ)) (embedAllFail bodyThrows : Bool)
        (now t2 : Nat),
        st.isWarmingUp = false →
        (warmUpCacheRag st scraped chunker oracle embedAllFail bodyThrows
            now t2).isWarmingUp = false) ∧
      (∀ (st : SimpleCache) (scraped : SimpleScraped) (bodyThrows : Bool)
          (now : Nat),
          st.isWarmingUp = false →
          (warmUpCacheSimple st scraped bodyThrows now).isWarmingUp = false) ∧
      ∀ (st : RagCache) (scraped : ScrapedContent)
        (chunker : ScrapedContent → List KChunk)
        (oracle : Nat → Option (List ℚ)) (embedAllFail : Bool)
        (now t2 : Nat),
        st.isWarmingUp = false →
        (warmUpCacheRag st scraped chunker oracle embedAllFail true
            now t2).content = some (fallbackContentWarm t2) ∧
          ((warmUpCacheRag st scraped chunker oracle embedAllFail true
              now t2).embeddings.map List.length)
            = ((warmUpCacheRag st scraped chunker oracle embedAllFail true
              now t2).chunks.map List.length) ∧
          ∀ es, (warmUpCacheRag st scraped chunker oracle embedAllFail true
              now t2).embeddings = some es → ∀ v ∈ es, v = zeroVec := by
  refine ⟨?_, ?_, ?_⟩
  · intro st scraped chunker oracle embedAllFail bodyThrows now t2 hflag
    rw [warmUpCacheRag, if_neg (by rw [hflag]; exact Bool.false_ne_true)]
    by_cases hb : bodyThrows = true
    · rw [if_pos hb]
    · rw [if_neg hb]
  · intro st scraped bodyThrows now hflag
    rw [warmUpCacheSimple, if_neg (by rw [hflag]; exact Bool.false_ne_true)]
    by_cases hb : bodyThrows = true
    · rw [if_pos hb]
    · rw [if_neg hb]
  · intro st scraped chunker oracle embedAllFail now t2 hflag
    rw [warmUpCacheRag, if_neg (by rw [hflag]; exact Bool.false_ne_true),
      if_pos rfl]
    refine ⟨rfl, by simp, ?_⟩
    intro es hes v hv
    simp only [Option.some.injEq] at hes
    subst hes
    rcases List.mem_map.mp hv with ⟨c, _, hc⟩
    exact hc.symm

/-- Witness for `warmup_settles_with_flag_clear` on concrete runs of
both variants. -/
theorem warmup_settles_with_flag_clear_witness :
    (warmUpCacheRag ⟨none, none, none, none, false⟩
        ⟨⟨"a", "b", "c", "d", "e", "f", "g"⟩, "full", 7⟩
        (fun _ => []) (fun _ => none) false true 1 2).isWarmingUp = false ∧
      (warmUpCacheSimple ⟨none, none, none, false⟩
        ⟨"a", "b", "c", "d", "e", "f", "g", "full"⟩ false 1).isWarmingUp
        = false ∧
      (warmUpCacheRag ⟨none, none, none, none, false⟩
        ⟨⟨"a", "b", "c", "d", "e", "f", "g"⟩, "full", 7⟩
        (fun _ => []) (fun _ => none) false true 1 2).content
        = some (fallbackContentWarm 2) :=
  ⟨warmup_settles_with_flag_clear.1 ⟨none, none, none, none, false⟩
      ⟨⟨"a", "b", "c", "d", "e", "f", "g"⟩, "full", 7⟩
      (fun _ => []) (fun _ => none) false true 1 2 rfl,
    warmup_settles_with_flag_clear.2.1 ⟨none, none, none, false⟩
      ⟨"a", "b", "c", "d", "e", "f", "g", "full"⟩ false 1 rfl,
    (warmup_settles_with_flag_clear.2.2 ⟨none, none, none, none, false⟩
      ⟨⟨"a", "b", "c", "d", "e", "f", "g"⟩, "full", 7⟩
      (fun _ => []) (fun _ => none) false 1 2 rfl).1⟩

set_option maxRecDepth 4096 in
/-- **C4 counterexample.**  "Non-degenerate" in the code is a property
of the **first** embedding only.  With an embedding set whose first
entry is the zero-vector placeholder and whose second entry is a real
vector — exactly what a failed first per-chunk call produces — not all
entries are zero-vectors, so the spec's non-degeneracy holds and the
claim demands vector mode; yet `findRelevantChunks` takes the keyword
branch even though the query embedding succeeds. -/
theorem vector_mode_counterexample :
    specNonDegenerate [zeroVec, 1 :: List.replicate 767 0] = true ∧
      findRelevantChunksMode (some [zeroVec, 1 :: List.replicate 767 0])
        (some (1 :: List.replicate 767 0)) = Mode.keyword := by
  constructor
  · simp [specNonDegenerate, zeroVec]
  · simp [findRelevantChunksMode, hasValidEmbeddings, zeroVec]

theorem hasValidEmbeddings_first_entry (e0 : List ℚ) (rest : List (List ℚ)) :
    hasValidEmbeddings (some (e0 :: rest)) = true ↔
      e0 ≠ [] ∧ ∃ v ∈ e0, v ≠ 0 := by
  simp [hasValidEmbeddings, List.isEmpty_iff, List.all_eq_true, not_forall]

/-- **C4 amended.**  Vector-mode scoring is used iff the embedding list
is present and non-empty, its **first** entry is non-empty and not
identically zero, and the query-embedding call returns a non-empty
vector; in every other case — embeddings absent or empty, a degenerate
(all-zero or empty) first entry, or a failed or empty query embedding —
the ranking falls back to keyword mode. -/
theorem vector_mode_iff (embeddings : Option (List (List ℚ)))
    (queryEmbed : Option (List ℚ)) :
    findRelevantChunksMode embeddings queryEmbed = Mode.vector ↔
      (∃ e0 rest, embeddings = some (e0 :: rest) ∧ e0 ≠ [] ∧
          (∃ v ∈ e0, v ≠ 0)) ∧
        ∃ q, queryEmbed = some q ∧ q ≠ [] := by
  constructor
  · intro h
    cases embeddings with
    | none => simp [findRelevantChunksMode, hasValidEmbeddings] at h
    | some es =>
      cases es with
      | nil => simp [findRelevantChunksMode, hasValidEmbeddings] at h
      | cons e0 rest =>
        by_cases hval : hasValidEmbeddings (some (e0 :: rest)) = true
        · cases queryEmbed with
          | none => simp [findRelevantChunksMode, hval] at h
          | some q =>
            by_cases hq : q.isEmpty
            · simp [findRelevantChunksMode, hval, hq] at h
            · have hparts := (hasValidEmbeddings_first_entry e0 rest).mp hval
              exact ⟨⟨e0, rest, rfl, hparts.1, hparts.2⟩,
                q, rfl, by simpa [List.isEmpty_iff] using hq⟩
        · simp [findRelevantChunksMode, hval] at h
  · rintro ⟨⟨e0, rest, rfl, hne, hv⟩, q, rfl, hqne⟩
    have hval : hasValidEmbeddings (some (e0 :: rest)) = true :=
      (hasValidEmbeddings_first_entry e0 rest).mpr ⟨hne, hv⟩
    have hq : q.isEmpty = false := by simp [List.isEmpty_iff, hqne]
    simp [findRelevantChunksMode, hval, hq]

theorem cs_step (x y S A B : ℝ) (hS : S ^ 2 ≤ A * B) (hA : 0 ≤ A) (hB : 0 ≤ B) :
    (x * y + S) ^ 2 ≤ (x * x + A) * (y * y + B) := by
  rcases eq_or_lt_of_le hA with hA0 | hApos
  · have hS0 : S = 0 := by nlinarith [sq_nonneg S]
    subst hS0
    nlinarith [sq_nonneg x, sq_nonneg y, mul_nonneg (sq_nonneg x) hB]
  · nlinarith [sq_nonneg (x * S - y * A),
      mul_nonneg (sub_nonneg.mpr hS) (sq_nonneg x),
      mul_nonneg (sub_nonneg.mpr hS) hApos.le, hApos]

theorem listDot_cons (x y : ℝ) (xs ys : List ℝ) :
    listDot (x :: xs) (y :: ys) = x * y + listDot xs ys := by
  simp [listDot]

theorem listDot_self_nonneg : ∀ a : List ℝ, 0 ≤ listDot a a := by
  intro a
  induction a with
  | nil => simp [listDot]
  | cons x xs ih =>
    rw [listDot_cons]
    nlinarith [mul_self_nonneg x]

theorem listDot_sq_le : ∀ (a b : List ℝ), a.length = b.length →
    (listDot a b) ^ 2 ≤ listDot a a * listDot b b := by
  intro a
  induction a with
  | nil =>
    intro b h
    cases b with
    | nil => simp [listDot]
    | cons y ys => simp at h
  | cons x xs ih =>
    intro b h
    cases b with
    | nil => simp at h
    | cons y ys =>
      have hlen : xs.length = ys.length := by simpa using h
      rw [listDot_cons, listDot_cons, listDot_cons]
      exact cs_step x y (listDot xs ys) (listDot xs xs) (listDot ys ys)
        (ih ys hlen) (listDot_self_nonneg xs) (listDot_self_nonneg ys)

/-- **C8.**  In the real-arithmetic model of the JS doubles, the
computed cosine similarity always lies in `[-1, 1]` — by Cauchy–Schwarz
for the equal-length compute path, and because every guard branch
returns the constant 0 — and whenever either vector has zero norm
(`Σ v²  = 0`) the result is the defined constant 0: never undefined,
never an exception. -/
theorem cosineSimilarity_bounds (a b : List ℝ) :
    (-1 ≤ cosineSimilarity a b ∧ cosineSimilarity a b ≤ 1) ∧
      ((listDot a a = 0 ∨ listDot b b = 0) → cosineSimilarity a b = 0) := by
  by_cases hlen : a.length ≠ b.length
  · rw [cosineSimilarity, if_pos hlen]
    norm_num
  · have hlen2 : a.length = b.length := not_not.mp hlen
    rw [cosineSimilarity, if_neg hlen]
    by_cases hden : Real.sqrt (listDot a a) * Real.sqrt (listDot b b) = 0
    · rw [if_pos hden]
      norm_num
    · rw [if_neg hden]
      have hA := listDot_self_nonneg a
      have hB := listDot_self_nonneg b
      have hdpos : 0 < Real.sqrt (listDot a a) * Real.sqrt (listDot b b) :=
        lt_of_le_of_ne
          (mul_nonneg (Real.sqrt_nonneg _) (Real.sqrt_nonneg _)) (Ne.symm hden)
      have habs : |listDot a b| ≤
          Real.sqrt (listDot a a) * Real.sqrt (listDot b b) := by
        rw [← Real.sqrt_sq_eq_abs, ← Real.sqrt_mul hA]
        exact Real.sqrt_le_sqrt (listDot_sq_le a b hlen2)
      rcases abs_le.mp habs with ⟨hlo, hhi⟩
      refine ⟨⟨?_, (div_le_one hdpos).mpr hhi⟩, ?_⟩
      · rw [le_div_iff₀ hdpos]
        linarith
      · intro hz
        rcases hz with h | h
        · exact absurd (by rw [h, Real.sqrt_zero, zero_mul]) hden
        · exact absurd (by rw [h, Real.sqrt_zero, mul_zero]) hden

/-- Witness for `cosineSimilarity_bounds`: the zero vector against a
unit vector scores exactly 0, inside `[-1, 1]`. -/
theorem cosineSimilarity_bounds_witness :
    cosineSimilarity [(0 : ℝ)] [(1 : ℝ)] = 0 ∧
      -1 ≤ cosineSimilarity [(0 : ℝ)] [(1 : ℝ)] ∧
      cosineSimilarity [(0 : ℝ)] [(1 : ℝ)] ≤ 1 :=
  ⟨(cosineSimilarity_bounds [0] [1]).2 (Or.inl (by simp [listDot])),
    (cosineSimilarity_bounds [0] [1]).1.1,
    (cosineSimilarity_bounds [0] [1]).1.2⟩

theorem warmActive_fetching : warmActive WarmPC.fetching = true := rfl

theorem warmActive_netWait : warmActive WarmPC.netWait = true := rfl

theorem reqOut_inv (content warming : Bool) (pc : ReqPC) (warm warmOther : WarmPC)
    (hx : (warmActive warm && warmActive warmOther) = false)
    (hw : (warmActive warm || warmActive warmOther) = true →
      (warming || content) = true) :
    (warmActive (reqStepCore content warming pc warm).warm &&
        warmActive warmOther) = false ∧
      ((warmActive (reqStepCore content warming pc warm).warm ||
          warmActive warmOther) = true →
        ((reqStepCore content warming pc warm).warming ||
          (reqStepCore content warming pc warm).contentPresent) = true) := by
  cases pc with
  | start =>
    by_cases hc : (!content && !warming) = true
    · have hcw : content = false ∧ warming = false := by
        simpa [Bool.and_eq_true, Bool.not_eq_true'] using hc
      have hother : warmActive warmOther = false := by
        cases hb : warmActive warmOther
        · rfl
        · have hcon := hw (by simp [hb])
          rw [hcw.1, hcw.2] at hcon
          simp at hcon
      have he : reqStepCore content warming ReqPC.start warm =
          ⟨ReqPC.poll 0, WarmPC.fetching, true, content, 0⟩ := by
        simp [reqStepCore, hc]
      rw [he]
      constructor
      · show (warmActive WarmPC.fetching && warmActive warmOther) = false
        rw [warmActive_fetching, hother]
        rfl
      · intro
        rfl
    · by_cases hwm : warming = true
      · have he : reqStepCore content warming ReqPC.start warm =
            ⟨ReqPC.poll 0, warm, true, content, 0⟩ := by
          simp [reqStepCore, hc, hwm]
        rw [he]
        exact ⟨hx, fun _ => rfl⟩
      · have hwm2 : warming = false := by
          cases warming
          · rfl
          · exact absurd rfl hwm
        have hcontent : content = true := by
          cases hcb : content
          · exact absurd (by rw [hcb, hwm2]; rfl) hc
          · rfl
        have he : reqStepCore content warming ReqPC.start warm =
            ⟨ReqPC.finished, warm, false, true, 0⟩ := by
          simp [reqStepCore, hc, hwm2, hcontent]
        rw [he]
        exact ⟨hx, fun _ => rfl⟩
  | poll r =>
    by_cases hc : (warming && decide (r < 30)) = true
    · have hcw : warming = true := by
        cases warming
        · simp at hc
        · rfl
      have hr : r < 30 := by
        cases hdec : decide (r < 30)
        · rw [hcw, hdec] at hc
          simp at hc
        · exact of_decide_eq_true hdec
      have he : reqStepCore content warming (ReqPC.poll r) warm =
          ⟨ReqPC.poll (r + 1), warm, true, content, 0⟩ := by
        simp [reqStepCore, hcw, hr]
      rw [he]
      exact ⟨hx, fun _ => rfl⟩
    · by_cases hcon : content = true
      · have he : reqStepCore content warming (ReqPC.poll r) warm =
            ⟨ReqPC.finished, warm, warming, true, 0⟩ := by
          simp [reqStepCore, hc, hcon]
        rw [he]
        refine ⟨hx, fun _ => ?_⟩
        show (warming || true) = true
        simp
      · have hcon2 : content = false := by
          cases content
          · rfl
          · exact absurd rfl hcon
        have he : reqStepCore content warming (ReqPC.poll r) warm =
            ⟨ReqPC.inlineWait, warm, warming, false, 1⟩ := by
          simp [reqStepCore, hc, hcon2]
        rw [he]
        refine ⟨hx, fun ha => ?_⟩
        have hres := hw ha
        rw [hcon2] at hres
        exact hres
  | inlineWait =>
    exact ⟨hx, fun _ => rfl⟩
  | finished =>
    exact ⟨hx, hw⟩

theorem stepInv (s : Sys) (t : Tid) (h : SysInv s) : SysInv (step s t) := by
  obtain ⟨hx, hw⟩ := h
  have hx2 : (warmActive s.warm1 && warmActive s.warm2) = false := by
    rw [warmBodiesExclusive] at hx
    cases hv : (warmActive s.warm1 && warmActive s.warm2)
    · rfl
    · rw [hv] at hx
      exact absurd hx (by decide)
  cases t with
  | req1 =>
    have hres := reqOut_inv s.contentPresent s.warming s.req1 s.warm1 s.warm2
      hx2 hw
    constructor
    · show (!(warmActive
          (reqStepCore s.contentPresent s.warming s.req1 s.warm1).warm &&
          warmActive s.warm2)) = true
      rw [hres.1]
      rfl
    · exact hres.2
  | req2 =>
    have hx2s : (warmActive s.warm2 && warmActive s.warm1) = false := by
      rw [Bool.and_comm] at hx2
      exact hx2
    have hws : (warmActive s.warm2 || warmActive s.warm1) = true →
        (s.warming || s.contentPresent) = true := by
      intro ha
      rw [Bool.or_comm] at ha
      exact hw ha
    have hres := reqOut_inv s.contentPresent s.warming s.req2 s.warm2 s.warm1
      hx2s hws
    constructor
    · show (!(warmActive s.warm1 && warmActive
          (reqStepCore s.contentPresent s.warming s.req2 s.warm2).warm)) = true
      rw [Bool.and_comm, hres.1]
      rfl
    · show (warmActive s.warm1 || warmActive
          (reqStepCore s.contentPresent s.warming s.req2 s.warm2).warm) = true →
        ((reqStepCore s.contentPresent s.warming s.req2 s.warm2).warming ||
          (reqStepCore s.contentPresent s.warming s.req2 s.warm2).contentPresent)
          = true
      intro ha
      rw [Bool.or_comm] at ha
      exact hres.2 ha
  | warm1 =>
    cases hw1 : s.warm1 with
    | idle =>
      have he : step s Tid.warm1 = s := by
        simp [step, hw1]
      rw [he]
      exact ⟨hx, hw⟩
    | fetching =>
      have hb2 : warmActive s.warm2 = false := by
        rw [hw1, warmActive_fetching] at hx2
        simpa using hx2
      have he : step s Tid.warm1 =
          { s with
              warm1 := WarmPC.netWait
              fetchCount := s.fetchCount + 1 } := by
        simp [step, hw1]
      rw [he]
      constructor
      · show (!(warmActive WarmPC.netWait && warmActive s.warm2)) = true
        rw [warmActive_netWait, hb2]
        rfl
      · intro ha
        show (s.warming || s.contentPresent) = true
        exact hw (by rw [hw1, warmActive_fetching]; rfl)
    | netWait =>
      have he : step s Tid.warm1 =
          { s with
              warm1 := WarmPC.done
              contentPresent := true
              warming := false } := by
        simp [step, hw1]
      rw [he]
      exact ⟨by rw [warmBodiesExclusive]; rfl, fun _ => rfl⟩
    | done =>
      have he : step s Tid.warm1 = s := by
        simp [step, hw1]
      rw [he]
      exact ⟨hx, hw⟩
  | warm2 =>
    cases hw2 : s.warm2 with
    | idle =>
      have he : step s Tid.warm2 = s := by
        simp [step, hw2]
      rw [he]
      exact ⟨hx, hw⟩
    | fetching =>
      have hb1 : warmActive s.warm1 = false := by
        rw [hw2, warmActive_fetching] at hx2
        simpa using hx2
      have he : step s Tid.warm2 =
          { s with
              warm2 := WarmPC.netWait
              fetchCount := s.fetchCount + 1 } := by
        simp [step, hw2]
      rw [he]
      constructor
      · show (!(warmActive s.warm1 && warmActive WarmPC.netWait)) = true
        rw [warmActive_netWait, hb1]
        rfl
      · intro ha
        show (s.warming || s.contentPresent) = true
        exact hw (by rw [hw2, warmActive_fetching]; simp)
    | netWait =>
      have he : step s Tid.warm2 =
          { s with
              warm2 := WarmPC.done
              contentPresent := true
              warming := false } := by
        simp [step, hw2]
      rw [he]
      refine ⟨?_, fun _ => rfl⟩
      rw [warmBodiesExclusive]
      show (!(warmActive s.warm1 && warmActive WarmPC.done)) = true
      simp [warmActive]
    | done =>
      have he : step s Tid.warm2 = s := by
        simp [step, hw2]
      rw [he]
      exact ⟨hx, hw⟩

theorem runSched_inv (sched : List Tid) : SysInv (runSched sched) := by
  have hinit : SysInv initSys := ⟨by decide, fun habs => absurd habs (by decide)⟩
  suffices hfold : ∀ (l : List Tid) (s : Sys), SysInv s →
      SysInv (l.foldl step s) by
    exact hfold sched initSys hinit
  intro l
  induction l with
  | nil => intro s hs; exact hs
  | cons t ts ih =>
    intro s hs
    exact ih (step s t) (stepInv s t hs)

/-- **C2 counterexample.**  "Exactly one refresh cycle" is false: under
this valid schedule, two concurrently arrived requests on an empty cache
produce **two** fetch-and-chunk-and-embed cycles.  Request 1 spawns the
warm-up (which sets the flag and issues its fetch, then waits on the
slow network); request 2 observes the flag and polls; request 1
exhausts its 30 retries and — the cache still empty — runs the
**unguarded** inline refresh of the handler (chat-original.js lines
537-593), issuing a second fetch. -/
theorem refresh_not_single_flight :
    (runSched ([Tid.req1, Tid.warm1, Tid.req2] ++
      List.replicate 31 Tid.req1)).fetchCount = 2 := by decide

/-- **C2 amended.**  What does hold is single-flight of `warmUpCache`
itself: under every schedule at most one `warmUpCache` body is in
flight at any time, because the body runs only after atomically finding
`isWarmingUp` clear and setting it, and the flag (or the installed
content) blocks every later spawn until the cycle completes.  Requests
whose 30 polls expire while the cache is still empty, however, proceed
to an inline refresh that bypasses the flag, so N concurrent requests
can still execute more than one fetch cycle (see
`refresh_not_single_flight`). -/
theorem warmup_single_flight (sched : List Tid) :
    warmBodiesExclusive (runSched sched) = true :=
  (runSched_inv sched).1
